import Mathlib

/-
Verification of the finscrapper scrape-merge-persist pipeline.

The definitions below are a shallow embedding of the Python source:
  newscraper/simple_file_storage_service.py
  newscraper/s3_storage_service.py
  newscraper/google_sheets_service.py
  newscraper/mega_rclone_storage_service.py and mega_storage_service.py
  newscraper/management/commands/scrape_moneycontrol.py and scrape_livemint.py
  newscraper/management/commands/scrape_all_sources.py
  newscraper/views.py
Dicts holding one scraped article are embedded as the structure Record, with
absent keys read as the empty string (matching item.get(key, "") in the
source).  pandas DataFrames are embedded as lists of Records kept in row
order.  Machine-level details (file IO, HTTP transport, boto3) are embedded
as explicit parameters: the pre-existing dataset a read would return, and
whether an upload succeeds or with which error kind it keeps failing.
-/

namespace NewsScraper

/-- One scraped article row: the columns of the CSV datasets and of the
Google Sheets rows.  Missing dict keys are embedded as the empty string. -/
structure Record where
  title : String
  url : String
  date : String
  content : String
  source : String
  scraped_at : String
deriving DecidableEq, Repr

/-- The whitespace set of the Python str.strip method, restricted to the
ASCII whitespace characters. -/
def isPySpace (c : Char) : Bool :=
  c == ' ' || c == '\t' || c == '\n' || c == '\r' || c == '\x0b' || c == '\x0c'

/-- Python str.strip on the character list: drop leading and trailing
whitespace. -/
def stripChars (l : List Char) : List Char :=
  List.rdropWhile isPySpace (List.dropWhile isPySpace l)

/-- Python str.strip() as used on the url fields in
GoogleSheetsService.store_news_data. -/
def pyStrip (s : String) : String :=
  String.mk (stripChars s.data)

/-- Setting the scraped_at column on a whole incoming batch: the embedding of
the line df[scraped_at column] = datetime.now().strftime(...), with the wall
clock passed in as the string t. -/
def stamp (t : String) (data : List Record) : List Record :=
  data.map (fun r => { r with scraped_at := t })

/-- pandas drop_duplicates on the url column with keep equal to last: a row
is kept exactly when no later row carries the same url, and the kept rows
stay in their original order. -/
def drop_duplicates_url_keep_last : List Record → List Record
  | [] => []
  | x :: xs =>
    if xs.any (fun y => y.url == x.url) then drop_duplicates_url_keep_last xs
    else x :: drop_duplicates_url_keep_last xs

namespace SimpleFileStorageService

/-- The merge step of SimpleFileStorageService.store_news_data (the same
code appears in S3StorageService.store_news_data and in the MEGA variants):
stamp the incoming batch, concatenate the existing dataset (if the CSV file
was present and readable) in front of it, and drop duplicate urls keeping
the last occurrence.  Returns the merged dataset and the value the method
returns, new_records = len(df). -/
def merge_store (t : String) (existing : Option (List Record))
    (data : List Record) : List Record × Nat :=
  let df := stamp t data
  let combined :=
    match existing with
    | some existing_df => drop_duplicates_url_keep_last (existing_df ++ df)
    | none => df
  (combined, df.length)

/-- The persisted state of the local CSV storage directory: one dataset per
source filename. -/
def StoreState := List (String × List Record)

instance : DecidableEq StoreState := by
  unfold StoreState
  infer_instance

/-- Overwriting one source file in the storage directory. -/
def setSource : StoreState → String → List Record → StoreState
  | [], src, d => [(src, d)]
  | (k, v) :: rest, src, d =>
    if k == src then (src, d) :: rest else (k, v) :: setSource rest src d

/-- SimpleFileStorageService.store_news_data at the level of the whole
storage directory: the early return 0 on an empty batch happens before any
file is touched; otherwise the merged dataset replaces the source file. -/
def store_news_data (t : String) (s : StoreState) (source : String)
    (data : List Record) : StoreState × Nat :=
  if data.isEmpty then (s, 0)
  else
    let res := merge_store t (List.lookup source s) data
    (setSource s source res.1, res.2)

end SimpleFileStorageService

namespace GoogleSheetsService

/-- The set of urls harvested from the existing sheet rows in
GoogleSheetsService.store_news_data: the stripped url of every row whose url
cell is non-empty. -/
def existingUrls (dataset : List Record) : List String :=
  dataset.filterMap (fun r => if r.url == "" then none else some (pyStrip r.url))

/-- The row appended for one accepted incoming item: title, stripped url,
date, content, source (the sheet source when the item carries none), and the
scraped_at stamp. -/
def mkRow (t src : String) (item : Record) : Record :=
  { title := item.title
    url := pyStrip item.url
    date := item.date
    content := item.content
    source := if item.source == "" then src else item.source
    scraped_at := t }

/-- The dedup loop of GoogleSheetsService.store_news_data: walk the incoming
items in order, accept an item exactly when its stripped url is non-empty
and not in the accumulated url set, and add accepted urls to the set. -/
def newRows (t src : String) : List Record → List String → List Record
  | [], _ => []
  | item :: rest, seen =>
    let u := pyStrip item.url
    if u != "" && !(seen.contains u) then
      mkRow t src item :: newRows t src rest (u :: seen)
    else
      newRows t src rest seen

/-- GoogleSheetsService.store_news_data on an existing sheet: append the
accepted rows and return their number. -/
def store_news_data (t src : String) (dataset : List Record)
    (news : List Record) : List Record × Nat :=
  let rows := newRows t src news (existingUrls dataset)
  (dataset ++ rows, rows.length)

end GoogleSheetsService

/-- The error taxonomy of the storage backends. -/
inductive ErrKind where
  | transient
  | unauth
  | corrupt
deriving DecidableEq, Repr

instance {E A : Type} [DecidableEq E] [DecidableEq A] : DecidableEq (Except E A) :=
  fun x y =>
    match x, y with
    | Except.ok a, Except.ok b =>
      if h : a = b then isTrue (by rw [h]) else isFalse (fun hh => h (Except.ok.inj hh))
    | Except.error e, Except.error f =>
      if h : e = f then isTrue (by rw [h]) else isFalse (fun hh => h (Except.error.inj hh))
    | Except.ok _, Except.error _ => isFalse (fun hh => Except.noConfusion hh)
    | Except.error _, Except.ok _ => isFalse (fun hh => Except.noConfusion hh)

/-- What one run of the simple_retry wrapper did: the value or error it
finished with (none embeds the final return None of the decorator, reached
only when max_attempts is 0), how many calls of the wrapped function it
made, and the sleep durations between consecutive attempts. -/
structure RetryTrace (A : Type) where
  result : Option (Except ErrKind A)
  attemptsMade : Nat
  sleeps : List ℚ

/-- The loop body of simple_retry (s3_storage_service.py and
mega_rclone_storage_service.py): the wrapped function is embedded as the
outcome f k of its k-th call, the random.uniform(0, 1) draw before the k-th
sleep as jitter k, and the sleep as delay_base * 2 ^ attempt + jitter. -/
def retryGo (base : ℚ) (jitter : Nat → ℚ) (f : Nat → Except ErrKind A) :
    Nat → Nat → RetryTrace A
  | _, 0 => ⟨none, 0, []⟩
  | k, r + 1 =>
    match f k with
    | Except.ok a => ⟨some (Except.ok a), 1, []⟩
    | Except.error e =>
      if r = 0 then ⟨some (Except.error e), 1, []⟩
      else
        let rest := retryGo base jitter f (k + 1) r
        ⟨rest.result, rest.attemptsMade + 1, (base * 2 ^ k + jitter k) :: rest.sleeps⟩

/-- simple_retry(max_attempts, delay_base) applied to a function whose k-th
call gives f k. -/
def simple_retry (maxAttempts : Nat) (base : ℚ) (jitter : Nat → ℚ)
    (f : Nat → Except ErrKind A) : RetryTrace A :=
  retryGo base jitter f 0 maxAttempts

/-- The externally visible writes performed by one body of
S3StorageService.store_news_data: the latest-key uploads, the history-key
uploads, and the local fallback CSV writes. -/
structure S3Effects where
  latestWrites : List (List Record)
  historyWrites : List (List Record)
  fallbackWrites : List (List Record)
deriving DecidableEq, Repr

/-- One execution of the body of S3StorageService.store_news_data (the MEGA
variants share the shape): empty batches return 0 before any transfer;
otherwise the stamped batch is merged with the downloaded existing dataset
and uploaded.  uploadErr embeds the behaviour of the uploads: none means
they succeed, some e means every upload attempt keeps failing with e, in
which case _fallback_to_local_storage writes the stamped incoming batch
(not the merged dataset) to a local backup file and the error is re-raised. -/
def s3StoreBody (t : String) (existing : Option (List Record))
    (uploadErr : Option ErrKind) (data : List Record) :
    Except ErrKind Nat × S3Effects :=
  if data.isEmpty then (Except.ok 0, ⟨[], [], []⟩)
  else
    let df := stamp t data
    let res := SimpleFileStorageService.merge_store t existing data
    match uploadErr with
    | none => (Except.ok res.2, ⟨[res.1], [df], []⟩)
    | some e => (Except.error e, ⟨[], [], [df]⟩)

/-- The outer simple_retry(max_attempts = 3, delay_base = 4) wrapped around
store_news_data, run on a body whose outcome and effects are the same at
every attempt: on success one attempt runs; on failure the body (with its
fallback write) runs once per attempt until the attempts are exhausted and
the last error is re-raised. -/
def runRetryEffects (body : Except ErrKind Nat × S3Effects) :
    Nat → Option (Except ErrKind Nat) × List S3Effects × Nat
  | 0 => (none, [], 0)
  | r + 1 =>
    match body.1 with
    | Except.ok a => (some (Except.ok a), [body.2], 1)
    | Except.error e =>
      if r = 0 then (some (Except.error e), [body.2], 1)
      else
        let rest := runRetryEffects body r
        (rest.1, body.2 :: rest.2.1, rest.2.2 + 1)

/-- The full retried S3 store call: result, the effects of each attempt, and
the number of attempts made. -/
def s3Store (t : String) (existing : Option (List Record))
    (uploadErr : Option ErrKind) (data : List Record) :
    Option (Except ErrKind Nat) × List S3Effects × Nat :=
  runRetryEffects (s3StoreBody t existing uploadErr data) 3

/-- One post dict extracted from a listing page by
extract_posts_from_page. -/
structure Post where
  title : String
  url : String
  category : String
  content : String
deriving DecidableEq, Repr

/-- The outcome of fetching one listing page in scrape_category: an HTTP
response with its status code and the posts extracted from it, or an
exception raised while fetching. -/
inductive PageResult where
  | page (status : Nat) (posts : List Post)
  | exn
deriving DecidableEq, Repr

/-- save_article via Article.objects.get_or_create: the article table gains
the post exactly when no row with its url exists yet, and the saved counter
follows the created flag. -/
def savePosts (db : List Post) (cnt : Nat) : List Post → List Post × Nat
  | [] => (db, cnt)
  | p :: rest =>
    if db.any (fun q => q.url == p.url) then savePosts db cnt rest
    else savePosts (db ++ [p]) (cnt + 1) rest

/-- The page loop of Command.scrape_category (scrape_moneycontrol.py; the
LiveMint loop has the same body over a different page range): walk the given
page numbers in order, stop at the first page that raises, answers with a
non-200 status, or yields no posts, and otherwise save every extracted
post.  The loop itself never raises: the except branch breaks. -/
def scrapePages (fetch : Nat → PageResult) (db : List Post) (cnt : Nat) :
    List Nat → List Post × Nat
  | [] => (db, cnt)
  | p :: rest =>
    match fetch p with
    | PageResult.exn => (db, cnt)
    | PageResult.page status posts =>
      if status ≠ 200 then (db, cnt)
      else if posts.isEmpty then (db, cnt)
      else
        let res := savePosts db cnt posts
        scrapePages fetch res.1 res.2 rest

/-- Command.scrape_category: pages 1 .. max_pages, an initially given
article table, and the scraped_count the command returns. -/
def scrape_category (fetch : Nat → PageResult) (maxPages : Nat)
    (db : List Post) : List Post × Nat :=
  scrapePages fetch db 0 (List.range' 1 maxPages)

/-- Does this page outcome terminate the pagination loop? -/
def pageStops : PageResult → Bool
  | PageResult.exn => true
  | PageResult.page status posts => status != 200 || posts.isEmpty

/-- The three-way wording of the final report of
scrape_all_sources.Command.handle. -/
inductive RunSummary where
  | allOk
  | someOk
  | noneOk
deriving DecidableEq, Repr

/-- The per-source loop of Command.handle (scrape_all_sources.py): each
call_command outcome is embedded as a Bool; a failing source is caught,
counted, and the loop moves on to the next source. -/
def runAllSources (outcomes : List Bool) : Nat × Nat :=
  outcomes.foldl
    (fun acc ok => if ok then (acc.1 + 1, acc.2) else (acc.1, acc.2 + 1)) (0, 0)

/-- The final classification printed by Command.handle: all scrapers
completed, partial success, or all scrapers failed. -/
def finalReport (n totalSuccess : Nat) : RunSummary :=
  if totalSuccess = n then RunSummary.allOk
  else if totalSuccess > 0 then RunSummary.someOk
  else RunSummary.noneOk

/-- Python str.split with a one-character separator, on character lists:
consecutive separators yield empty parts, like the Python method. -/
def splitChar (sep : Char) : List Char → List (List Char)
  | [] => [[]]
  | c :: rest =>
    match splitChar sep rest with
    | [] => [[]]
    | cur :: parts =>
      if c == sep then [] :: cur :: parts else (c :: cur) :: parts

/-- A numeric field of up to two digits as matched by the strptime
directives for month, day, hour, minute and second: one or two digit
characters, read as a number. -/
def twoDigitField : List Char → Option Nat
  | [c] => if c.isDigit then some (c.toNat - 48) else none
  | [c, d] =>
    if c.isDigit && d.isDigit then some ((c.toNat - 48) * 10 + (d.toNat - 48))
    else none
  | _ => none

/-- The year field of strptime: exactly four digit characters. -/
def yearField : List Char → Option Nat
  | [a, b, c, d] =>
    if a.isDigit && b.isDigit && c.isDigit && d.isDigit then
      some (((a.toNat - 48) * 10 + (b.toNat - 48)) * 100 +
        (c.toNat - 48) * 10 + (d.toNat - 48))
    else none
  | _ => none

/-- The Gregorian month lengths used by datetime to validate the day. -/
def daysInMonth (y m : Nat) : Nat :=
  if m = 2 then
    if y % 4 = 0 && (y % 100 != 0 || y % 400 = 0) then 29 else 28
  else if m = 4 || m = 6 || m = 9 || m = 11 then 30
  else 31

/-- datetime.strptime with format %Y-%m-%d followed by .date(): the whole
string must be consumed, the month must be 1..12 and the day valid for the
month, else the ValueError is embedded as none. -/
def strptimeYMD (s : String) : Option (Nat × Nat × Nat) :=
  match splitChar '-' s.data with
  | [ys, ms, ds] =>
    match yearField ys, twoDigitField ms, twoDigitField ds with
    | some y, some m, some d =>
      if 1 ≤ m && m ≤ 12 && 1 ≤ d && d ≤ daysInMonth y m then some (y, m, d)
      else none
    | _, _, _ => none
  | _ => none

/-- datetime.strptime with format %Y-%m-%d %H:%M:%S followed by .date():
the date part as above, a single separating space, and a valid
hour:minute:second triple that .date() then discards. -/
def strptimeYMDHMS (s : String) : Option (Nat × Nat × Nat) :=
  match splitChar ' ' s.data with
  | [datePart, timePart] =>
    match strptimeYMD (String.mk datePart), splitChar ':' timePart with
    | some ymd, [hs, ms, ss] =>
      match twoDigitField hs, twoDigitField ms, twoDigitField ss with
      | some h, some mi, some se =>
        if h ≤ 23 && mi ≤ 59 && se ≤ 59 then some ymd else none
      | _, _, _ => none
    | _, _ => none
  | _ => none

/-- The format loop of the dashboard view: try %Y-%m-%d, then
%Y-%m-%d %H:%M:%S; every ValueError is caught by the inner try of the loop,
leaving article_date = None when both formats fail. -/
def parseArticleDate (s : String) : Option (Nat × Nat × Nat) :=
  match strptimeYMD s with
  | some d => some d
  | none => strptimeYMDHMS s

/-- Total order key for parsed calendar dates: lexicographic on
year, month, day. -/
def dateKey (d : Nat × Nat × Nat) : Nat :=
  d.1 * 10000 + d.2.1 * 100 + d.2.2

/-- Case-insensitive substring test, the embedding of the Python operator
lowered_needle in lowered_haystack. -/
def containsLower (haystack needle : String) : Bool :=
  decide (List.IsInfix needle.toLower.data haystack.toLower.data)

/-- Does the date guard of the dashboard loop keep this article?  This is
the literal control flow of views.dashboard lines 91-126 (download_articles
repeats it verbatim): when a bound is given, the article drops out only when
its date string parses under one of the two formats and the parsed date
falls outside a parseable bound.  A date string that parses under neither
format leaves article_date = None, skips every comparison and keeps the
article; the except-branch that would skip invalid dates is unreachable for
string date fields because each strptime ValueError is caught by the
per-format try. -/
def dateGuardKeeps (date_from date_to : String) (r : Record) : Bool :=
  let article_date_str := if r.date != "" then r.date else r.scraped_at
  if date_from != "" || date_to != "" then
    if article_date_str != "" then
      match parseArticleDate article_date_str with
      | none => true
      | some d =>
        let fromOk :=
          match strptimeYMD date_from with
          | some f => decide (dateKey d ≥ dateKey f)
          | none => true
        let toOk :=
          match strptimeYMD date_to with
          | some u => decide (dateKey d ≤ dateKey u)
          | none => true
        (date_from == "" || fromOk) && (date_to == "" || toOk)
    else true
  else true

/-- The article filter loop shared by views.dashboard and
views.download_articles: source equality (case-insensitive), free-text
substring search over title and content, then the date guard. -/
def dashboardFilter (source search date_from date_to : String)
    (articles : List Record) : List Record :=
  articles.filter (fun r =>
    (source == "" || r.source.toLower == source.toLower) &&
    (search == "" || containsLower r.title search || containsLower r.content search) &&
    dateGuardKeeps date_from date_to r)

/-- The Dataset uniqueness invariant: no two rows share a url. -/
def urlUnique (l : List Record) : Prop :=
  l.Pairwise (fun a b => a.url ≠ b.url)

instance (l : List Record) : Decidable (urlUnique l) := by
  unfold urlUnique
  infer_instance

/-- Helper for reasoning about drop_duplicates with keep equal to last on a
split list: keep the rows of the first list whose url recurs neither later
in it nor anywhere in the second list. -/
def dropAgainst : List Record → List Record → List Record
  | [], _ => []
  | x :: xs, m =>
    if (xs ++ m).any (fun y => y.url == x.url) then dropAgainst xs m
    else x :: dropAgainst xs m

theorem ddl_append (l m : List Record) :
    drop_duplicates_url_keep_last (l ++ m) =
      dropAgainst l m ++ drop_duplicates_url_keep_last m := by
  induction l with
  | nil => simp [dropAgainst]
  | cons x xs ih =>
    simp only [List.cons_append, drop_duplicates_url_keep_last, dropAgainst,
      List.append_eq]
    by_cases hc : ((xs ++ m).any fun y => y.url == x.url) = true
    · rw [if_pos hc, if_pos hc, ih]
    · rw [if_neg hc, if_neg hc, ih, List.cons_append]

theorem mem_ddl {x : Record} : ∀ {l : List Record},
    x ∈ drop_duplicates_url_keep_last l → x ∈ l := by
  intro l
  induction l with
  | nil => simp [drop_duplicates_url_keep_last]
  | cons y ys ih =>
    simp only [drop_duplicates_url_keep_last]
    split
    · intro h
      exact List.mem_cons_of_mem _ (ih h)
    · intro h
      rcases List.mem_cons.mp h with h | h
      · exact h ▸ List.mem_cons_self _ _
      · exact List.mem_cons_of_mem _ (ih h)

theorem mem_dropAgainst {x : Record} : ∀ {l m : List Record},
    x ∈ dropAgainst l m →
      x ∈ l ∧ m.any (fun y => y.url == x.url) = false := by
  intro l
  induction l with
  | nil => simp [dropAgainst]
  | cons y ys ih =>
    intro m h
    simp only [dropAgainst] at h
    by_cases hc : ((ys ++ m).any fun z => z.url == y.url) = true
    · rw [if_pos hc] at h
      exact ⟨List.mem_cons_of_mem _ (ih h).1, (ih h).2⟩
    · rw [if_neg hc] at h
      rcases List.mem_cons.mp h with h | h
      · subst h
        refine ⟨List.mem_cons_self _ _, ?_⟩
        have hfalse : ((ys ++ m).any fun z => z.url == x.url) = false :=
          Bool.eq_false_iff.mpr hc
        rw [List.any_append, Bool.or_eq_false_iff] at hfalse
        exact hfalse.2
      · exact ⟨List.mem_cons_of_mem _ (ih h).1, (ih h).2⟩

theorem dropAgainst_eq_nil {l m : List Record}
    (h : ∀ x ∈ l, m.any (fun y => y.url == x.url) = true) :
    dropAgainst l m = [] := by
  induction l with
  | nil => rfl
  | cons x xs ih =>
    simp only [dropAgainst]
    have hx : (xs ++ m).any (fun y => y.url == x.url) = true := by
      rw [List.any_append]
      exact Bool.or_eq_true_iff.mpr (Or.inr (h x (List.mem_cons_self _ _)))
    rw [if_pos hx]
    exact ih (fun x hx => h x (List.mem_cons_of_mem _ hx))

theorem dropAgainst_pairwise : ∀ (l m : List Record),
    urlUnique (dropAgainst l m) := by
  intro l
  induction l with
  | nil => intro m; exact List.Pairwise.nil
  | cons x xs ih =>
    intro m
    simp only [dropAgainst]
    by_cases hc : ((xs ++ m).any fun y => y.url == x.url) = true
    · rw [if_pos hc]
      exact ih m
    · rw [if_neg hc]
      refine List.pairwise_cons.mpr ⟨?_, ih m⟩
      intro b hb he
      have hbxs : b ∈ xs := (mem_dropAgainst hb).1
      exact hc (List.any_eq_true.mpr
        ⟨b, List.mem_append_left _ hbxs, beq_iff_eq.mpr he.symm⟩)

theorem dropAgainst_eq_self : ∀ {l m : List Record},
    urlUnique l → (∀ x ∈ l, m.any (fun y => y.url == x.url) = false) →
    dropAgainst l m = l := by
  intro l
  induction l with
  | nil => intro m _ _; rfl
  | cons x xs ih =>
    intro m hp hm
    have hhead := List.pairwise_cons.mp hp
    have hx : (xs ++ m).any (fun y => y.url == x.url) = false := by
      rw [List.any_append, Bool.or_eq_false_iff]
      refine ⟨?_, hm x (List.mem_cons_self _ _)⟩
      rw [List.any_eq_false]
      intro y hy
      simp only [beq_iff_eq]
      exact fun he => hhead.1 y hy he.symm
    simp only [dropAgainst]
    rw [if_neg (Bool.eq_false_iff.mp hx)]
    rw [ih hhead.2 (fun z hz => hm z (List.mem_cons_of_mem _ hz))]

theorem ddl_pairwise : ∀ (l : List Record),
    urlUnique (drop_duplicates_url_keep_last l) := by
  intro l
  induction l with
  | nil => exact List.Pairwise.nil
  | cons x xs ih =>
    simp only [drop_duplicates_url_keep_last]
    by_cases hc : (xs.any fun y => y.url == x.url) = true
    · rw [if_pos hc]
      exact ih
    · rw [if_neg hc]
      refine List.pairwise_cons.mpr ⟨?_, ih⟩
      intro b hb he
      exact hc (List.any_eq_true.mpr ⟨b, mem_ddl hb, beq_iff_eq.mpr he.symm⟩)

theorem dropAgainst_append (l₁ l₂ m : List Record) :
    dropAgainst (l₁ ++ l₂) m = dropAgainst l₁ (l₂ ++ m) ++ dropAgainst l₂ m := by
  induction l₁ with
  | nil => simp [dropAgainst]
  | cons x xs ih =>
    simp only [List.cons_append, dropAgainst, List.append_eq, List.append_assoc]
    by_cases hc : ((xs ++ (l₂ ++ m)).any fun y => y.url == x.url) = true
    · rw [if_pos hc, if_pos hc, ih]
    · rw [if_neg hc, if_neg hc, ih, List.cons_append]

theorem dropAgainst_ddl_self (S : List Record) :
    dropAgainst (drop_duplicates_url_keep_last S) S = [] := by
  refine dropAgainst_eq_nil ?_
  intro x hx
  exact List.any_eq_true.mpr ⟨x, mem_ddl hx, beq_iff_eq.mpr rfl⟩

theorem ddl_idem_append (D S : List Record) :
    drop_duplicates_url_keep_last (drop_duplicates_url_keep_last (D ++ S) ++ S) =
      drop_duplicates_url_keep_last (D ++ S) := by
  rw [ddl_append D S, List.append_assoc,
    ddl_append (dropAgainst D S) (drop_duplicates_url_keep_last S ++ S),
    ddl_append (drop_duplicates_url_keep_last S) S, dropAgainst_ddl_self,
    List.nil_append]
  have hfix : dropAgainst (dropAgainst D S)
      (drop_duplicates_url_keep_last S ++ S) = dropAgainst D S := by
    refine dropAgainst_eq_self (dropAgainst_pairwise D S) ?_
    intro x hx
    have hS : S.any (fun y => y.url == x.url) = false := (mem_dropAgainst hx).2
    rw [List.any_append, Bool.or_eq_false_iff]
    refine ⟨?_, hS⟩
    rw [List.any_eq_false]
    intro y hy
    have hyS : y ∈ S := mem_ddl hy
    have := List.any_eq_false.mp hS y hyS
    exact this
  rw [hfix]

theorem dropWhile_head_not (p : Char → Bool) : ∀ (l : List Char) {c : Char}
    {cs : List Char}, List.dropWhile p l = c :: cs → p c = false := by
  intro l
  induction l with
  | nil =>
    intro c cs h
    simp [List.dropWhile] at h
  | cons a as ih =>
    intro c cs h
    rw [List.dropWhile_cons] at h
    by_cases hp : p a = true
    · rw [if_pos hp] at h
      exact ih h
    · rw [if_neg hp] at h
      injection h with h1 _
      subst h1
      exact Bool.eq_false_iff.mpr hp

theorem stripChars_dropWhile (l : List Char) :
    List.dropWhile isPySpace (stripChars l) = stripChars l := by
  unfold stripChars
  rcases hr : List.rdropWhile isPySpace (List.dropWhile isPySpace l) with _ | ⟨c, cs⟩
  · simp
  · have hpre : List.IsPrefix (c :: cs) (List.dropWhile isPySpace l) := by
      rw [← hr]
      exact List.rdropWhile_prefix _ _
    obtain ⟨tl, htl⟩ := hpre
    have hc : isPySpace c = false :=
      dropWhile_head_not isPySpace l (by rw [← htl]; rfl)
    rw [List.dropWhile_cons, if_neg (Bool.eq_false_iff.mp hc)]

theorem stripChars_idem (l : List Char) :
    stripChars (stripChars l) = stripChars l := by
  conv_lhs => rw [stripChars, stripChars_dropWhile]
  exact List.rdropWhile_idempotent _ _

theorem pyStrip_idem (s : String) : pyStrip (pyStrip s) = pyStrip s := by
  unfold pyStrip
  rw [show (String.mk (stripChars s.data)).data = stripChars s.data from rfl,
    stripChars_idem]

theorem contains_true_iff (l : List String) (a : String) :
    l.contains a = true ↔ a ∈ l := by
  unfold List.contains
  exact List.elem_iff

namespace GoogleSheetsService

theorem newRows_mem (t src : String) {row : Record} : ∀ {news : List Record}
    {seen : List String}, row ∈ newRows t src news seen →
      row.url ≠ "" ∧ seen.contains row.url = false ∧ pyStrip row.url = row.url := by
  intro news
  induction news with
  | nil =>
    intro seen h
    simp [newRows] at h
  | cons item rest ih =>
    intro seen h
    simp only [newRows] at h
    by_cases hc :
        (pyStrip item.url != "" && !(seen.contains (pyStrip item.url))) = true
    · rw [if_pos hc] at h
      rcases Bool.and_eq_true_iff.mp hc with ⟨hne, hnc⟩
      rcases List.mem_cons.mp h with h | h
      · subst h
        refine ⟨bne_iff_ne.mp hne, ?_, pyStrip_idem item.url⟩
        rw [Bool.not_eq_true'] at hnc
        exact hnc
      · have := ih h
        refine ⟨this.1, ?_, this.2.2⟩
        have hcons := this.2.1
        rw [List.contains_cons, Bool.or_eq_false_iff] at hcons
        exact hcons.2
    · rw [if_neg hc] at h
      exact ih h

theorem newRows_pairwise (t src : String) : ∀ {news : List Record}
    {seen : List String}, urlUnique (newRows t src news seen) := by
  intro news
  induction news with
  | nil =>
    intro seen
    simp only [newRows]
    exact List.Pairwise.nil
  | cons item rest ih =>
    intro seen
    simp only [newRows]
    by_cases hc :
        (pyStrip item.url != "" && !(seen.contains (pyStrip item.url))) = true
    · rw [if_pos hc]
      refine List.pairwise_cons.mpr ⟨?_, ih⟩
      intro b hb he
      have hmem := newRows_mem t src hb
      have hcons := hmem.2.1
      rw [List.contains_cons, Bool.or_eq_false_iff] at hcons
      have hbe : (b.url == pyStrip item.url) = true :=
        beq_iff_eq.mpr (show b.url = pyStrip item.url from he.symm)
      rw [hcons.1] at hbe
      exact Bool.false_ne_true hbe
    · rw [if_neg hc]
      exact ih

theorem existingUrls_mem {r : Record} {dataset : List Record} (hr : r ∈ dataset)
    (hne : r.url ≠ "") : pyStrip r.url ∈ existingUrls dataset := by
  unfold existingUrls
  rw [List.mem_filterMap]
  refine ⟨r, hr, ?_⟩
  rw [if_neg (fun h => hne (beq_iff_eq.mp h))]

theorem existingUrls_append (a b : List Record) :
    existingUrls (a ++ b) = existingUrls a ++ existingUrls b := by
  unfold existingUrls
  exact List.filterMap_append a b _

theorem newRows_blocked (t src : String) : ∀ {news : List Record}
    {s : List String},
    (∀ item ∈ news, pyStrip item.url = "" ∨ s.contains (pyStrip item.url) = true) →
    newRows t src news s = [] := by
  intro news
  induction news with
  | nil =>
    intro s _
    rfl
  | cons item rest ih =>
    intro s h
    simp only [newRows]
    have hguard : (pyStrip item.url != "" && !(s.contains (pyStrip item.url))) = false := by
      rcases h item (List.mem_cons_self _ _) with he | hc
      · rw [Bool.and_eq_false_iff]
        exact Or.inl (by rw [bne_eq_false_iff_eq]; exact he)
      · rw [Bool.and_eq_false_iff]
        exact Or.inr (by rw [hc]; rfl)
    rw [if_neg (Bool.eq_false_iff.mp hguard)]
    exact ih (fun x hx => h x (List.mem_cons_of_mem _ hx))

theorem newRows_exhaust (t src : String) : ∀ {news : List Record}
    {seen : List String} {item : Record}, item ∈ news → pyStrip item.url ≠ "" →
    pyStrip item.url ∈ seen ∨
      ∃ row ∈ newRows t src news seen, row.url = pyStrip item.url := by
  intro news
  induction news with
  | nil =>
    intro seen item h
    exact absurd h (List.not_mem_nil _)
  | cons it0 rest ih =>
    intro seen item hmem hne
    simp only [newRows]
    by_cases hc :
        (pyStrip it0.url != "" && !(seen.contains (pyStrip it0.url))) = true
    · rw [if_pos hc]
      rcases List.mem_cons.mp hmem with hi | hi
      · subst hi
        exact Or.inr ⟨mkRow t src item, List.mem_cons_self _ _, rfl⟩
      · rcases @ih (pyStrip it0.url :: seen) item hi hne with hseen | ⟨row, hrow, hurl⟩
        · rcases List.mem_cons.mp hseen with he | he
          · exact Or.inr ⟨mkRow t src it0, List.mem_cons_self _ _, he.symm⟩
          · exact Or.inl he
        · exact Or.inr ⟨row, List.mem_cons_of_mem _ hrow, hurl⟩
    · rw [if_neg hc]
      rcases List.mem_cons.mp hmem with hi | hi
      · subst hi
        rcases Bool.and_eq_false_iff.mp (Bool.eq_false_iff.mpr hc) with hf | hf
        · exact absurd (bne_eq_false_iff_eq.mp hf) hne
        · refine Or.inl ?_
          rw [Bool.not_eq_false'] at hf
          exact (contains_true_iff _ _).mp hf
      · exact ih hi hne

end GoogleSheetsService

theorem retryGo_error_step {A : Type} (base : ℚ) (jitter : Nat → ℚ)
    (e : ErrKind) (k n : Nat) :
    retryGo base jitter (fun _ => (Except.error e : Except ErrKind A)) k (n + 2) =
      ⟨(retryGo base jitter (fun _ => (Except.error e : Except ErrKind A))
          (k + 1) (n + 1)).result,
       (retryGo base jitter (fun _ => (Except.error e : Except ErrKind A))
          (k + 1) (n + 1)).attemptsMade + 1,
       (base * 2 ^ k + jitter k) ::
        (retryGo base jitter (fun _ => (Except.error e : Except ErrKind A))
          (k + 1) (n + 1)).sleeps⟩ := rfl

theorem retryGo_const_error {A : Type} (base : ℚ) (jitter : Nat → ℚ)
    (e : ErrKind) : ∀ (r k : Nat),
    retryGo base jitter (fun _ => (Except.error e : Except ErrKind A)) k (r + 1) =
      ⟨some (Except.error e), r + 1,
        (List.range' k r).map (fun i => base * 2 ^ i + jitter i)⟩ := by
  intro r
  induction r with
  | zero =>
    intro k
    rfl
  | succ n ih =>
    intro k
    rw [show n + 1 + 1 = n + 2 from rfl, retryGo_error_step, ih (k + 1),
      List.range'_succ, List.map_cons]

theorem retryGo_attempts_le {A : Type} (base : ℚ) (jitter : Nat → ℚ)
    (f : Nat → Except ErrKind A) : ∀ (r k : Nat),
    (retryGo base jitter f k r).attemptsMade ≤ r := by
  intro r
  induction r with
  | zero =>
    intro k
    exact Nat.le_refl 0
  | succ n ih =>
    intro k
    cases hf : f k with
    | ok a =>
      simp only [retryGo, hf]
      exact Nat.succ_le_succ (Nat.zero_le n)
    | error e =>
      simp only [retryGo, hf]
      by_cases hn : n = 0
      · rw [if_pos hn]
        exact Nat.succ_le_succ (Nat.zero_le n)
      · rw [if_neg hn]
        exact Nat.succ_le_succ (ih (k + 1))

theorem scrapePages_break (fetch : Nat → PageResult) :
    ∀ (l₁ : List Nat) (db : List Post) (cnt : Nat) (k : Nat) (l₂ : List Nat),
    (∀ j ∈ l₁, pageStops (fetch j) = false) → pageStops (fetch k) = true →
    scrapePages fetch db cnt (l₁ ++ k :: l₂) = scrapePages fetch db cnt l₁ := by
  intro l₁
  induction l₁ with
  | nil =>
    intro db cnt k l₂ _ hk
    cases hf : fetch k with
    | exn => simp only [List.nil_append, scrapePages, hf]
    | page status posts =>
      rw [hf] at hk
      simp only [pageStops] at hk
      simp only [List.nil_append, scrapePages, hf]
      by_cases hs : status = 200
      · have hemp : posts.isEmpty = true := by
          rw [Bool.or_eq_true_iff] at hk
          rcases hk with hk | hk
          · exact absurd (bne_iff_ne.mp hk) (fun hne => hne hs)
          · exact hk
        rw [if_neg (fun hcon => hcon hs), if_pos hemp]
      · rw [if_pos hs]
  | cons j l₁ ih =>
    intro db cnt k l₂ hgood hk
    have hj := hgood j (List.mem_cons_self _ _)
    cases hf : fetch j with
    | exn =>
      rw [hf] at hj
      simp [pageStops] at hj
    | page status posts =>
      rw [hf] at hj
      simp only [pageStops] at hj
      obtain ⟨h200, hne⟩ := Bool.or_eq_false_iff.mp hj
      have hst : status = 200 := bne_eq_false_iff_eq.mp h200
      simp only [List.cons_append, scrapePages, hf]
      rw [if_neg (fun hcon => hcon hst), if_neg (Bool.eq_false_iff.mp hne),
        if_neg (fun hcon => hcon hst), if_neg (Bool.eq_false_iff.mp hne)]
      exact ih _ _ k l₂ (fun x hx => hgood x (List.mem_cons_of_mem _ hx)) hk

theorem runAll_foldl (l : List Bool) : ∀ (a b : Nat),
    l.foldl (fun acc ok => if ok then (acc.1 + 1, acc.2) else (acc.1, acc.2 + 1))
        (a, b) = (a + l.count true, b + l.count false) := by
  induction l with
  | nil =>
    intro a b
    simp
  | cons x xs ih =>
    intro a b
    cases x
    · rw [List.foldl_cons]
      simp only [if_neg Bool.false_ne_true]
      rw [ih, Prod.mk.injEq]
      constructor
      · rw [List.count_cons]
        simp
      · rw [List.count_cons]
        simp
        omega
    · rw [List.foldl_cons]
      simp only [if_pos rfl]
      rw [ih, Prod.mk.injEq]
      constructor
      · rw [List.count_cons]
        simp
        omega
      · rw [List.count_cons]
        simp

theorem runAllSources_spec (l : List Bool) :
    runAllSources l = (l.count true, l.count false) := by
  unfold runAllSources
  rw [runAll_foldl]
  simp

theorem merge_store_second (t : String) (D B : List Record) :
    (SimpleFileStorageService.merge_store t
        (some (SimpleFileStorageService.merge_store t (some D) B).1) B).1 =
      (SimpleFileStorageService.merge_store t (some D) B).1 := by
  simp only [SimpleFileStorageService.merge_store]
  exact ddl_idem_append D (stamp t B)

theorem sheets_store_unique (t src : String) (dataset news : List Record)
    (h : urlUnique dataset) :
    urlUnique (GoogleSheetsService.store_news_data t src dataset news).1 := by
  simp only [GoogleSheetsService.store_news_data]
  refine List.pairwise_append.mpr
    ⟨h, GoogleSheetsService.newRows_pairwise t src, ?_⟩
  intro a ha b hb he
  have hm := GoogleSheetsService.newRows_mem t src hb
  have hane : a.url ≠ "" := by
    rw [he]
    exact hm.1
  have hmem : pyStrip a.url ∈ GoogleSheetsService.existingUrls dataset :=
    GoogleSheetsService.existingUrls_mem ha hane
  rw [he, hm.2.2] at hmem
  have hct := (contains_true_iff _ _).mpr hmem
  rw [hm.2.1] at hct
  exact Bool.false_ne_true hct

theorem sheets_store_second (t t2 src : String) (dataset news : List Record) :
    GoogleSheetsService.store_news_data t2 src
        (GoogleSheetsService.store_news_data t src dataset news).1 news =
      ((GoogleSheetsService.store_news_data t src dataset news).1, 0) := by
  simp only [GoogleSheetsService.store_news_data]
  have hblock : GoogleSheetsService.newRows t2 src news
      (GoogleSheetsService.existingUrls (dataset ++
        GoogleSheetsService.newRows t src news
          (GoogleSheetsService.existingUrls dataset))) = [] := by
    refine GoogleSheetsService.newRows_blocked t2 src ?_
    intro item hitem
    by_cases hne : pyStrip item.url = ""
    · exact Or.inl hne
    · refine Or.inr ?_
      rw [contains_true_iff, GoogleSheetsService.existingUrls_append]
      rcases @GoogleSheetsService.newRows_exhaust t src news
          (GoogleSheetsService.existingUrls dataset) item hitem hne with
        hseen | ⟨row, hrow, hurl⟩
      · exact List.mem_append_left _ hseen
      · refine List.mem_append_right _ ?_
        have hm := GoogleSheetsService.newRows_mem t src hrow
        have hmem : pyStrip row.url ∈ GoogleSheetsService.existingUrls
            (GoogleSheetsService.newRows t src news
              (GoogleSheetsService.existingUrls dataset)) :=
          GoogleSheetsService.existingUrls_mem hrow hm.1
        rw [hm.2.2, hurl] at hmem
        exact hmem
  rw [hblock]
  simp

theorem count_bool_split (l : List Bool) :
    l.count true + l.count false = l.length := by
  induction l with
  | nil => rfl
  | cons x xs ih =>
    cases x <;> rw [List.count_cons, List.count_cons] <;> simp <;> omega

/-
Concrete fixtures used by the counterexamples and witnesses below.
-/

/-- An article with url a, as in the scenario of the specification. -/
def recA : Record := ⟨"A1", "a", "", "", "", ""⟩

/-- A second scrape of the same url a with fresher content. -/
def recA2 : Record := ⟨"A2", "a", "", "", "", ""⟩

/-- An article with the new url b. -/
def recB : Record := ⟨"B1", "b", "", "", "", ""⟩

/-- One post extracted from listing page 1 in the fetch scenario. -/
def p1 : Post := ⟨"P1", "u1", "business", "c"⟩

/-- The fetch behaviour of the scenario: page 1 answers 200 with one post,
page 2 and later answer HTTP 404. -/
def fetchEx : Nat → PageResult := fun p =>
  if p = 1 then PageResult.page 200 [p1] else PageResult.page 404 []

/-- An article dated inside the filter window. -/
def art1 : Record := ⟨"t1", "u1", "2024-01-15", "", "", ""⟩

/-- An article dated after the filter window. -/
def art2 : Record := ⟨"t2", "u2", "2024-02-01", "", "", ""⟩

/-- An article with an unparsable date field. -/
def art3 : Record := ⟨"t3", "u3", "N/A", "", "", ""⟩

/-
Claim theorems.
-/

/-- C1, counterexample: for existing dataset with url a and incoming batch
with urls a and b, store_news_data returns 2 (the full batch size), not the
accepted count 1 claimed by the specification. -/
theorem C1_counterexample :
    (SimpleFileStorageService.merge_store "t" (some [recA]) [recA2, recB]).2 = 2 ∧
    (SimpleFileStorageService.merge_store "t" (some [recA]) [recA2, recB]).2 ≠ 1 := by
  constructor
  · rfl
  · decide

/-- C1, amended: the new-record count returned by the file and S3 merge
paths equals the total size of the incoming batch (len(df)), independent of
how many of its records were already present; in the scenario the returned
count is 2, not 1. -/
theorem C1_count_is_batch_size :
    (∀ (t : String) (existing : Option (List Record)) (data : List Record),
      (SimpleFileStorageService.merge_store t existing data).2 = data.length) ∧
    (∀ (t : String) (s : SimpleFileStorageService.StoreState)
      (source : String) (data : List Record),
      (SimpleFileStorageService.store_news_data t s source data).2 = data.length) := by
  constructor
  · intro t existing data
    simp [SimpleFileStorageService.merge_store, stamp]
  · intro t s source data
    cases data with
    | nil => rfl
    | cons x xs =>
      simp [SimpleFileStorageService.store_news_data,
        SimpleFileStorageService.merge_store, stamp]

/-- C2: the dataset produced by a merge has no two records with the same
url: unconditionally for the drop_duplicates merge of the file and S3
backends, and for the Google Sheets append merge whenever the existing
sheet already satisfies the invariant (the sheets merge only appends rows
whose stripped url collides with nothing already present). -/
theorem C2_merge_uniqueness :
    (∀ (t : String) (existing data : List Record),
      urlUnique (SimpleFileStorageService.merge_store t (some existing) data).1) ∧
    (∀ (t src : String) (dataset news : List Record), urlUnique dataset →
      urlUnique (GoogleSheetsService.store_news_data t src dataset news).1) := by
  constructor
  · intro t existing data
    simp only [SimpleFileStorageService.merge_store]
    exact ddl_pairwise _
  · intro t src dataset news h
    exact sheets_store_unique t src dataset news h

/-- C2, witness at the concrete scenario data. -/
theorem C2_merge_uniqueness_witness :
    urlUnique (SimpleFileStorageService.merge_store "t" (some [recA]) [recA2, recB]).1 ∧
    urlUnique (GoogleSheetsService.store_news_data "t" "src" [recA] [recA2, recB]).1 :=
  ⟨C2_merge_uniqueness.1 "t" [recA] [recA2, recB],
   C2_merge_uniqueness.2 "t" "src" [recA] [recA2, recB] (by decide)⟩

/-- C3, counterexample: re-storing the same batch a second time reports a
new-record count of 1 (the batch size) on the file and S3 merge paths, not
the claimed 0. -/
theorem C3_counterexample :
    (SimpleFileStorageService.merge_store "t"
      (some (SimpleFileStorageService.merge_store "t" (some [recA]) [recB]).1)
      [recB]).2 = 1 ∧
    (SimpleFileStorageService.merge_store "t"
      (some (SimpleFileStorageService.merge_store "t" (some [recA]) [recB]).1)
      [recB]).2 ≠ 0 := by
  constructor
  · rfl
  · decide

/-- C3, amended: merging the same batch a second time leaves the dataset
unchanged on every merge path (same scraped_at stamp for the file variant;
any stamp for the sheets variant, which accepts nothing on the second
call); the reported count on the second call is 0 for the Google Sheets
variant but equals the batch size for the file and S3 variants. -/
theorem C3_merge_idempotent :
    (∀ (t : String) (D B : List Record),
      (SimpleFileStorageService.merge_store t
        (some (SimpleFileStorageService.merge_store t (some D) B).1) B).1 =
        (SimpleFileStorageService.merge_store t (some D) B).1) ∧
    (∀ (t : String) (D B : List Record),
      (SimpleFileStorageService.merge_store t
        (some (SimpleFileStorageService.merge_store t (some D) B).1) B).2 =
        B.length) ∧
    (∀ (t t2 src : String) (dataset news : List Record),
      GoogleSheetsService.store_news_data t2 src
          (GoogleSheetsService.store_news_data t src dataset news).1 news =
        ((GoogleSheetsService.store_news_data t src dataset news).1, 0)) := by
  refine ⟨merge_store_second, ?_, sheets_store_second⟩
  intro t D B
  simp [SimpleFileStorageService.merge_store, stamp]

/-- C4, counterexample: the retry wrapper keeps retrying an operation that
fails with the Unauthenticated error kind: it makes 3 attempts, not the 1
attempt with zero retries the specification claims. -/
theorem C4_counterexample :
    (simple_retry 3 2 (fun _ => 0)
      (fun _ => (Except.error ErrKind.unauth : Except ErrKind Nat))).attemptsMade = 3 ∧
    (simple_retry 3 2 (fun _ => 0)
      (fun _ => (Except.error ErrKind.unauth : Except ErrKind Nat))).attemptsMade ≠ 1 := by
  refine ⟨rfl, ?_⟩
  intro h
  rw [show (simple_retry 3 2 (fun _ => 0)
    (fun _ => (Except.error ErrKind.unauth : Except ErrKind Nat))).attemptsMade = 3
    from rfl] at h
  exact absurd h (by decide)

/-- C4, amended: simple_retry is error-kind blind: for every error kind,
including Unauthenticated and Corrupt, an operation that keeps failing with
it is retried until all max_attempts attempts are used, and only then is
the error surfaced. -/
theorem C4_retries_every_kind :
    ∀ (e : ErrKind) (base : ℚ) (jitter : Nat → ℚ) (n : Nat),
      (simple_retry (n + 1) base jitter
        (fun _ => (Except.error e : Except ErrKind Nat))).result =
          some (Except.error e) ∧
      (simple_retry (n + 1) base jitter
        (fun _ => (Except.error e : Except ErrKind Nat))).attemptsMade = n + 1 := by
  intro e base jitter n
  unfold simple_retry
  rw [retryGo_const_error]
  exact ⟨rfl, rfl⟩

/-- C5, counterexample: with existing dataset holding url a and an incoming
batch holding only url b, a failing upload makes the fallback write hold
only the stamped incoming batch; the record with url a belongs to the
merged dataset of the attempted write but is absent from every fallback
write, so the fallback does not hold the full merged dataset. -/
theorem C5_counterexample :
    (recA ∈ (SimpleFileStorageService.merge_store "t" (some [recA]) [recB]).1) ∧
    ((s3Store "t" (some [recA]) (some ErrKind.transient) [recB]).2.1.map
        S3Effects.fallbackWrites =
      [[[{ recB with scraped_at := "t" }]], [[{ recB with scraped_at := "t" }]],
       [[{ recB with scraped_at := "t" }]]]) ∧
    (recA ∉ [{ recB with scraped_at := "t" }]) := by
  refine ⟨?_, rfl, ?_⟩
  · decide
  · decide

/-- C5, amended: when the upload keeps failing, every attempt of the
retried S3 store invokes the local fallback, the fallback file holds
exactly the stamped incoming batch (every record of the batch, but not the
records already in the remote dataset), no latest upload succeeds, and the
original error is re-raised to the caller. -/
theorem C5_fallback_batch_and_reraise :
    ∀ (t : String) (existing : Option (List Record)) (e : ErrKind)
      (data : List Record), data ≠ [] →
      (s3Store t existing (some e) data).1 = some (Except.error e) ∧
      (s3Store t existing (some e) data).2.1 ≠ [] ∧
      ∀ eff ∈ (s3Store t existing (some e) data).2.1,
        eff.fallbackWrites = [stamp t data] ∧ eff.latestWrites = [] := by
  intro t existing e data hne
  have hbody : s3StoreBody t existing (some e) data =
      (Except.error e, ⟨[], [], [stamp t data]⟩) := by
    simp only [s3StoreBody]
    rw [if_neg]
    intro hemp
    exact hne (List.isEmpty_iff.mp hemp)
  have hrun : s3Store t existing (some e) data =
      (some (Except.error e),
       [⟨[], [], [stamp t data]⟩, ⟨[], [], [stamp t data]⟩,
        ⟨[], [], [stamp t data]⟩], 3) := by
    unfold s3Store
    rw [hbody]
    rfl
  rw [hrun]
  refine ⟨rfl, List.cons_ne_nil _ _, ?_⟩
  intro eff heff
  simp only [List.mem_cons, List.not_mem_nil, or_false] at heff
  rcases heff with rfl | rfl | rfl
  all_goals exact ⟨rfl, rfl⟩

/-- C5, witness at the concrete counterexample data. -/
theorem C5_fallback_witness :
    (s3Store "t" (some [recA]) (some ErrKind.transient) [recB]).1 =
      some (Except.error ErrKind.transient) ∧
    (s3Store "t" (some [recA]) (some ErrKind.transient) [recB]).2.1 ≠ [] ∧
    ∀ eff ∈ (s3Store "t" (some [recA]) (some ErrKind.transient) [recB]).2.1,
      eff.fallbackWrites = [stamp "t" [recB]] ∧ eff.latestWrites = [] :=
  C5_fallback_batch_and_reraise "t" (some [recA]) ErrKind.transient [recB]
    (by decide)

/-- C6: for a write that keeps failing with a TransientIO error, the retry
wrapper of the upload path (max_attempts 3, delay_base 2) makes exactly 3
attempts and sleeps delay_base * 2 ^ attempt plus the drawn jitter between
consecutive attempts; each sleep is bounded by the pure exponential term
plus 1 when the jitter draws lie in the unit interval; no run of the
wrapper ever exceeds 3 attempts; and the fallback path triggers (the
fallback write list of the store body is non-empty) once the upload error
propagates. -/
theorem C6_retry_bound :
    ∀ (jitter : Nat → ℚ), (∀ n, 0 ≤ jitter n ∧ jitter n ≤ 1) →
      (∀ (f : Nat → Except ErrKind Unit),
        (simple_retry 3 2 jitter f).attemptsMade ≤ 3) ∧
      (simple_retry 3 2 jitter
          (fun _ => (Except.error ErrKind.transient : Except ErrKind Unit))) =
        ⟨some (Except.error ErrKind.transient), 3,
          [2 * 2 ^ 0 + jitter 0, 2 * 2 ^ 1 + jitter 1]⟩ ∧
      (∀ k : Nat, 2 * 2 ^ k ≤ 2 * 2 ^ k + jitter k ∧
        2 * 2 ^ k + jitter k ≤ 2 * 2 ^ k + 1) ∧
      (∀ (t : String) (existing : Option (List Record)) (data : List Record),
        data ≠ [] →
        (s3StoreBody t existing (some ErrKind.transient) data).2.fallbackWrites ≠ []) := by
  intro jitter hj
  refine ⟨?_, ?_, ?_, ?_⟩
  · intro f
    exact retryGo_attempts_le 2 jitter f 3 0
  · unfold simple_retry
    rw [retryGo_const_error 2 jitter ErrKind.transient 2 0]
    rfl
  · intro k
    constructor
    · exact le_add_of_nonneg_right (hj k).1
    · exact add_le_add_left (hj k).2 _
  · intro t existing data hne
    have hbody : s3StoreBody t existing (some ErrKind.transient) data =
        (Except.error ErrKind.transient, ⟨[], [], [stamp t data]⟩) := by
      simp only [s3StoreBody]
      rw [if_neg]
      intro hemp
      exact hne (List.isEmpty_iff.mp hemp)
    rw [hbody]
    intro hcon
    cases hcon

/-- C6, witness with the zero jitter draw and the constantly failing
upload. -/
theorem C6_retry_bound_witness :
    (simple_retry 3 2 (fun _ => (0 : ℚ))
        (fun _ => (Except.error ErrKind.transient : Except ErrKind Unit))) =
      ⟨some (Except.error ErrKind.transient), 3,
        [2 * 2 ^ 0 + (0 : ℚ), 2 * 2 ^ 1 + (0 : ℚ)]⟩ ∧
    (s3StoreBody "t" (some [recA]) (some ErrKind.transient) [recB]).2.fallbackWrites ≠ [] := by
  have h := C6_retry_bound (fun _ => (0 : ℚ))
    (fun n => ⟨le_refl 0, by norm_num⟩)
  exact ⟨h.2.1, h.2.2.2 "t" (some [recA]) [recB] (by decide)⟩

/-- C7: the page loop of the fetchers stops at the first page that raises,
answers a non-200 status, or yields no extracted posts, keeping everything
gathered from the earlier pages and raising nothing (the loop body catches
and breaks); in particular, with max_pages 5 and an HTTP 404 on page 2,
exactly the page-1 records are returned. -/
theorem C7_pagination_early_stop :
    (∀ (fetch : Nat → PageResult) (db : List Post) (cnt : Nat)
      (l₁ : List Nat) (k : Nat) (l₂ : List Nat),
      (∀ j ∈ l₁, pageStops (fetch j) = false) → pageStops (fetch k) = true →
      scrapePages fetch db cnt (l₁ ++ k :: l₂) = scrapePages fetch db cnt l₁) ∧
    scrape_category fetchEx 5 [] = ([p1], 1) := by
  constructor
  · intro fetch db cnt l₁ k l₂ hgood hk
    exact scrapePages_break fetch l₁ db cnt k l₂ hgood hk
  · decide

/-- C7, witness: the general early-stop theorem applied to the concrete
404-on-page-2 fetch behaviour. -/
theorem C7_pagination_witness :
    scrapePages fetchEx [] 0 ([1] ++ 2 :: [3, 4, 5]) =
      scrapePages fetchEx [] 0 [1] :=
  C7_pagination_early_stop.1 fetchEx [] 0 [1] 2 [3, 4, 5] (by decide) (by decide)

/-- C8: evaluating the dashboard filter at the failing input of the claim:
with bounds 2024-01-01 .. 2024-01-31 over articles dated 2024-01-15,
2024-02-01 and N/A, the code keeps the unparsable N/A article as well,
returning two records where the claim (and the comment in the source
about skipping invalid dates) expects only the first. -/
theorem C8_unparsable_dates_kept :
    dashboardFilter "" "" "2024-01-01" "2024-01-31" [art1, art2, art3] =
      [art1, art3] ∧
    dashboardFilter "" "" "2024-01-01" "2024-01-31" [art1, art2, art3] ≠
      [art1] := by
  constructor
  · decide
  · decide

/-- C9: the orchestrator processes every source regardless of earlier
failures (successes and failures always add up to the number of sources),
the success counter counts exactly the sources that succeeded, and the
final report is allOk exactly when every source succeeded, someOk exactly
when some but not all succeeded, and noneOk exactly when none of the (at
least one) sources succeeded. -/
theorem C9_aggregate_report :
    ∀ (outcomes : List Bool),
      (runAllSources outcomes).1 + (runAllSources outcomes).2 = outcomes.length ∧
      (runAllSources outcomes).1 = outcomes.count true ∧
      (finalReport outcomes.length (runAllSources outcomes).1 = RunSummary.allOk ↔
        (runAllSources outcomes).1 = outcomes.length) ∧
      (finalReport outcomes.length (runAllSources outcomes).1 = RunSummary.someOk ↔
        0 < (runAllSources outcomes).1 ∧
          (runAllSources outcomes).1 < outcomes.length) ∧
      (finalReport outcomes.length (runAllSources outcomes).1 = RunSummary.noneOk ↔
        ((runAllSources outcomes).1 = 0 ∧ 0 < outcomes.length)) := by
  intro outcomes
  rw [runAllSources_spec]
  have hsum := count_bool_split outcomes
  have hle : outcomes.count true ≤ outcomes.length := by omega
  refine ⟨hsum, rfl, ?_, ?_, ?_⟩
  all_goals unfold finalReport
  · by_cases h1 : outcomes.count true = outcomes.length
    · rw [if_pos h1]
      simp [h1]
    · rw [if_neg h1]
      split <;> simp [h1]
  · by_cases h1 : outcomes.count true = outcomes.length
    · rw [if_pos h1]
      constructor
      · intro hcon
        cases hcon
      · intro hcon
        omega
    · rw [if_neg h1]
      by_cases h2 : outcomes.count true > 0
      · rw [if_pos h2]
        constructor
        · intro _
          omega
        · intro _
          rfl
      · rw [if_neg h2]
        constructor
        · intro hcon
          cases hcon
        · intro hcon
          omega
  · by_cases h1 : outcomes.count true = outcomes.length
    · rw [if_pos h1]
      constructor
      · intro hcon
        cases hcon
      · intro hcon
        omega
    · rw [if_neg h1]
      by_cases h2 : outcomes.count true > 0
      · rw [if_pos h2]
        constructor
        · intro hcon
          cases hcon
        · intro hcon
          omega
      · rw [if_neg h2]
        constructor
        · intro _
          omega
        · intro _
          rfl

/-- C10: storing an empty batch is a no-op with count 0: the local file
store returns before touching any file, leaving the whole storage state
unchanged, and the retried S3 store succeeds in one attempt with no latest,
history, or fallback write. -/
theorem C10_empty_batch_noop :
    (∀ (t : String) (s : SimpleFileStorageService.StoreState) (source : String),
      SimpleFileStorageService.store_news_data t s source [] = (s, 0)) ∧
    (∀ (t : String) (existing : Option (List Record))
      (uploadErr : Option ErrKind),
      s3Store t existing uploadErr [] = (some (Except.ok 0), [⟨[], [], []⟩], 1)) :=
  ⟨fun _ _ _ => rfl, fun _ _ _ => rfl⟩

end NewsScraper
